import Mathlib

/-!
Verification of the acquisition/merge/enrichment pipeline of
`src/api/fetch-user-data.js` (movie-stats-visualizer).

The JavaScript source is shallowly embedded: every record field that the
scraper produces is a string (empty string plays the role of a JS falsy
value), the handler's `Map` keyed by `LetterboxdURI` is embedded as an
association list with JS `Map.set` semantics (update in place, otherwise
append), and every outbound network / cache effect is an explicit oracle
argument so that control flow around failures (`try`/`catch` becomes
matching on `Except`) can be reasoned about.
-/

namespace MovieStats

/-- One scraped row, as produced by `scrapeDiaryPage` / `scrapeFilmsPage`
(`src/api/fetch-user-data.js`, lines 388-394 and 474-480).  All fields are
strings; the scraper uses `''` for absent values. -/
structure Entry where
  Date : String
  Name : String
  Year : String
  LetterboxdURI : String
  Rating : String
deriving DecidableEq

/-- The handler's `byUri` map (line 788): insertion-ordered association
list from `LetterboxdURI` keys to entries. -/
abbrev FilmMap := List (String × Entry)

/-- JS `Map.get`. -/
def mapGet (m : FilmMap) (k : String) : Option Entry :=
  (m.find? (fun p => p.1 == k)).map (fun p => p.2)

/-- JS `Map.set`: replace the value in place if the key is present,
otherwise append the pair at the end (insertion order preserved). -/
def mapSet (m : FilmMap) (k : String) (v : Entry) : FilmMap :=
  if m.any (fun p => p.1 == k) then
    m.map (fun p => if p.1 == k then (k, v) else p)
  else m ++ [(k, v)]

/-- Lines 790-793: seed the map from the films grid, skipping entries
with a falsy (empty) `LetterboxdURI`. -/
def insertFilmEntry (m : FilmMap) (e : Entry) : FilmMap :=
  if e.LetterboxdURI = "" then m else mapSet m e.LetterboxdURI e

/-- Lines 806-820: the field-precedence part of the diary overlay.
`Rating`/`Year` are filled only when the existing value is empty and the
diary value is non-empty; `Date` is overwritten whenever the diary entry
has a non-empty date. -/
def mergeDiaryEntry (existing e : Entry) : Entry :=
  let m1 := if existing.Rating = "" ∧ e.Rating ≠ "" then { existing with Rating := e.Rating } else existing
  let m2 := if m1.Year = "" ∧ e.Year ≠ "" then { m1 with Year := e.Year } else m1
  if e.Date ≠ "" then { m2 with Date := e.Date } else m2

/-- Lines 797-823: overlay a single diary entry on the map: skip entries
without a key; insert if the key is new; otherwise apply the
field-precedence merge. -/
def overlayDiaryEntry (m : FilmMap) (e : Entry) : FilmMap :=
  if e.LetterboxdURI = "" then m
  else
    match mapGet m e.LetterboxdURI with
    | none => mapSet m e.LetterboxdURI e
    | some existing => mapSet m e.LetterboxdURI (mergeDiaryEntry existing e)

/-- The merged `byUri` map after seeding from the grid and overlaying the
diary (lines 788-823). -/
def mergeMap (films diary : List Entry) : FilmMap :=
  diary.foldl overlayDiaryEntry (films.foldl insertFilmEntry [])

/-- `Array.from(byUri.values())` (line 825): the merged record list. -/
def merge (films diary : List Entry) : List Entry :=
  (mergeMap films diary).map (fun p => p.2)

-- Sanity example for the spec's worked scenario (section 8).
example :
    merge [⟨"", "Film A", "2001", "/a/", "4"⟩] [⟨"2022-05-01", "Film A", "", "/a/", ""⟩]
      = [⟨"2022-05-01", "Film A", "2001", "/a/", "4"⟩] := by decide

/-! ### Projections of the field-precedence merge -/

theorem mergeDiaryEntry_URI (ex e : Entry) :
    (mergeDiaryEntry ex e).LetterboxdURI = ex.LetterboxdURI := by
  simp only [mergeDiaryEntry]
  split_ifs <;> rfl

theorem mergeDiaryEntry_Date (ex e : Entry) :
    (mergeDiaryEntry ex e).Date = if e.Date = "" then ex.Date else e.Date := by
  simp only [mergeDiaryEntry]
  split_ifs <;> simp_all

theorem mergeDiaryEntry_Rating (ex e : Entry) :
    (mergeDiaryEntry ex e).Rating =
      if ex.Rating = "" ∧ e.Rating ≠ "" then e.Rating else ex.Rating := by
  simp only [mergeDiaryEntry]
  split_ifs <;> simp_all

theorem mergeDiaryEntry_Year (ex e : Entry) :
    (mergeDiaryEntry ex e).Year =
      if ex.Year = "" ∧ e.Year ≠ "" then e.Year else ex.Year := by
  simp only [mergeDiaryEntry]
  split_ifs <;> simp_all

/-! ### JS `Map` get/set laws -/

theorem find?_replace (m : FilmMap) (k : String) (v : Entry) :
    (m.map (fun p => if p.1 == k then (k, v) else p)).find? (fun p => p.1 == k)
      = if m.any (fun p => p.1 == k) then some (k, v) else none := by
  induction m with
  | nil => rfl
  | cons p rest ih =>
    by_cases h : p.1 = k
    · rw [List.map_cons, if_pos (by simp [h]), List.find?_cons_of_pos _ (by simp)]
      simp [h]
    · have hb : (p.1 == k) = false := by simp [h]
      rw [List.map_cons, if_neg (by simp [h]), List.find?_cons_of_neg _ (by simp [h]), ih,
        List.any_cons, hb, Bool.false_or]

theorem find?_replace_ne (m : FilmMap) (k k' : String) (v : Entry) (h : k' ≠ k) :
    (m.map (fun p => if p.1 == k then (k, v) else p)).find? (fun p => p.1 == k')
      = m.find? (fun p => p.1 == k') := by
  induction m with
  | nil => rfl
  | cons p rest ih =>
    by_cases hp : p.1 = k
    · have hkk : ¬(k = k') := fun hk => h hk.symm
      rw [List.map_cons, if_pos (by simp [hp]), List.find?_cons_of_neg _ (by simp [hkk]),
          List.find?_cons_of_neg _ (by simp [hp, hkk]), ih]
    · by_cases hpk : p.1 = k'
      · rw [List.map_cons, if_neg (by simp [hp]), List.find?_cons_of_pos _ (by simp [hpk]),
            List.find?_cons_of_pos _ (by simp [hpk])]
      · rw [List.map_cons, if_neg (by simp [hp]), List.find?_cons_of_neg _ (by simp [hpk]),
            List.find?_cons_of_neg _ (by simp [hpk]), ih]

theorem find?_not_any (m : FilmMap) (k : String)
    (h : ¬(m.any (fun p => p.1 == k)) = true) :
    m.find? (fun p => p.1 == k) = none := by
  rw [List.find?_eq_none]
  intro x hx
  intro hc
  exact h (List.any_eq_true.mpr ⟨x, hx, hc⟩)

theorem mapGet_mapSet_self (m : FilmMap) (k : String) (v : Entry) :
    mapGet (mapSet m k v) k = some v := by
  unfold mapGet mapSet
  split_ifs with h
  · rw [find?_replace, if_pos h]
    rfl
  · rw [List.find?_append, find?_not_any m k h]
    simp

theorem mapGet_mapSet_ne (m : FilmMap) (k k' : String) (v : Entry) (h : k' ≠ k) :
    mapGet (mapSet m k v) k' = mapGet m k' := by
  unfold mapGet mapSet
  split_ifs with hmem
  · rw [find?_replace_ne m k k' v h]
  · rw [List.find?_append]
    have hsng : ([((k : String), v)].find? (fun p => p.1 == k')) = none := by
      have : ¬(k = k') := fun hk => h hk.symm
      simp [this]
    rw [hsng]
    simp

/-- The `byUri` map invariant: every stored value's `LetterboxdURI` is its
key, keys are non-empty, and keys are unique. -/
def goodMap (m : FilmMap) : Prop :=
  (∀ p ∈ m, p.2.LetterboxdURI = p.1 ∧ p.1 ≠ "") ∧ (m.map Prod.fst).Nodup

theorem goodMap_nil : goodMap [] := by
  constructor
  · intro p hp; cases hp
  · simp

theorem mapSet_keys (m : FilmMap) (k : String) (v : Entry) :
    (mapSet m k v).map Prod.fst =
      if m.any (fun p => p.1 == k) then m.map Prod.fst else m.map Prod.fst ++ [k] := by
  unfold mapSet
  split_ifs with h
  · rw [List.map_map]
    refine List.map_congr_left ?_
    intro p _
    by_cases hp : p.1 = k
    · simp [hp]
    · simp [hp]
  · simp

theorem goodMap_mapSet (m : FilmMap) (k : String) (v : Entry)
    (hm : goodMap m) (hv : v.LetterboxdURI = k) (hk : k ≠ "") :
    goodMap (mapSet m k v) := by
  obtain ⟨hvals, hnodup⟩ := hm
  constructor
  · intro p hp
    unfold mapSet at hp
    split_ifs at hp with h
    · obtain ⟨q, hq, hpq⟩ := List.mem_map.mp hp
      by_cases hqk : q.1 = k
      · rw [if_pos (by simpa using hqk)] at hpq
        subst hpq; exact ⟨hv, hk⟩
      · rw [if_neg (by simpa using hqk)] at hpq
        subst hpq; exact hvals q hq
    · rcases List.mem_append.mp hp with hin | hin
      · exact hvals p hin
      · simp only [List.mem_singleton] at hin
        subst hin; exact ⟨hv, hk⟩
  · rw [mapSet_keys]
    split_ifs with h
    · exact hnodup
    · rw [List.nodup_append]
      refine ⟨hnodup, List.nodup_singleton _, ?_⟩
      intro a ha hb
      simp only [List.mem_singleton] at hb
      subst hb
      obtain ⟨q, hq, hqk⟩ := List.mem_map.mp ha
      exact h (List.any_eq_true.mpr ⟨q, hq, beq_iff_eq.mpr hqk⟩)

theorem mapGet_good (m : FilmMap) (k : String) (v : Entry)
    (hm : goodMap m) (hget : mapGet m k = some v) :
    v.LetterboxdURI = k ∧ v ∈ m.map Prod.snd := by
  unfold mapGet at hget
  obtain ⟨p, hp, hpv⟩ := Option.map_eq_some'.mp hget
  have hkey : p.1 = k := by simpa using List.find?_some hp
  have hmem : p ∈ m := List.mem_of_find?_eq_some hp
  refine ⟨?_, ?_⟩
  · rw [← hpv, (hm.1 p hmem).1, hkey]
  · exact hpv ▸ List.mem_map_of_mem Prod.snd hmem

theorem good_mem_get (m : FilmMap) (v : Entry)
    (hm : goodMap m) (hv : v ∈ m.map Prod.snd) :
    mapGet m v.LetterboxdURI = some v := by
  obtain ⟨p, hp, hpv⟩ := List.mem_map.mp hv
  induction m with
  | nil => cases hp
  | cons q rest ih =>
    have hgood : goodMap rest := by
      refine ⟨fun r hr => hm.1 r (List.mem_cons_of_mem q hr), ?_⟩
      exact (List.nodup_cons.mp (by simpa using hm.2)).2
    rcases List.mem_cons.mp hp with hqp | htail
    · subst hqp
      unfold mapGet
      rw [List.find?_cons_of_pos _ (by simp [hpv ▸ (hm.1 p (List.mem_cons_self p rest)).1])]
      simp [hpv]
    · have hne : q.1 ≠ v.LetterboxdURI := by
        intro hc
        have hkeyp : p.1 = v.LetterboxdURI := by
          rw [← hpv]; exact ((hm.1 p hp).1).symm
        have : q.1 ∈ rest.map Prod.fst := by
          rw [hc, ← hkeyp]
          exact List.mem_map_of_mem Prod.fst htail
        exact (List.nodup_cons.mp (by simpa using hm.2)).1 this
      unfold mapGet
      rw [List.find?_cons_of_neg _ (by simp [hne])]
      exact ih hgood (List.mem_map.mpr ⟨p, htail, hpv⟩) htail

/-! ### Reducing the map-valued folds to per-key scalar folds -/

/-- Effect of one grid entry on the record stored at key `k`. -/
def seedStep (c : Option Entry) (e : Entry) (k : String) : Option Entry :=
  if e.LetterboxdURI = k then some e else c

/-- Effect of one diary entry on the record stored at key `k`. -/
def overlayStep (c : Option Entry) (e : Entry) (k : String) : Option Entry :=
  if e.LetterboxdURI = k then
    match c with
    | none => some e
    | some ex => some (mergeDiaryEntry ex e)
  else c

theorem mapGet_foldl_insert (films : List Entry) (m : FilmMap) (k : String) (hk : k ≠ "") :
    mapGet (films.foldl insertFilmEntry m) k
      = films.foldl (fun c e => seedStep c e k) (mapGet m k) := by
  induction films generalizing m with
  | nil => rfl
  | cons e fs ih =>
    rw [List.foldl_cons, List.foldl_cons, ih]
    congr 1
    unfold insertFilmEntry seedStep
    by_cases he : e.LetterboxdURI = ""
    · rw [if_pos he, if_neg (by rw [he]; exact fun hc => hk hc.symm)]
    · rw [if_neg he]
      by_cases hek : e.LetterboxdURI = k
      · rw [if_pos hek, hek, mapGet_mapSet_self]
      · rw [if_neg hek, mapGet_mapSet_ne _ _ _ _ (fun hc => hek hc.symm)]

theorem mapGet_foldl_overlay (diary : List Entry) (m : FilmMap) (k : String) (hk : k ≠ "") :
    mapGet (diary.foldl overlayDiaryEntry m) k
      = diary.foldl (fun c e => overlayStep c e k) (mapGet m k) := by
  induction diary generalizing m with
  | nil => rfl
  | cons e ds ih =>
    rw [List.foldl_cons, List.foldl_cons, ih]
    congr 1
    unfold overlayDiaryEntry overlayStep
    by_cases he : e.LetterboxdURI = ""
    · rw [if_pos he, if_neg (by rw [he]; exact fun hc => hk hc.symm)]
    · rw [if_neg he]
      by_cases hek : e.LetterboxdURI = k
      · subst hek
        cases hg : mapGet m e.LetterboxdURI with
        | none => rw [if_pos rfl, mapGet_mapSet_self]
        | some ex => rw [if_pos rfl, mapGet_mapSet_self]
      · rw [if_neg hek]
        cases hg : mapGet m e.LetterboxdURI with
        | none => rw [mapGet_mapSet_ne _ _ _ _ (fun hc => hek hc.symm)]
        | some ex => rw [mapGet_mapSet_ne _ _ _ _ (fun hc => hek hc.symm)]

theorem goodMap_insertFilmEntry (m : FilmMap) (e : Entry) (hm : goodMap m) :
    goodMap (insertFilmEntry m e) := by
  unfold insertFilmEntry
  split_ifs with he
  · exact hm
  · exact goodMap_mapSet m _ e hm rfl he

theorem goodMap_overlayDiaryEntry (m : FilmMap) (e : Entry) (hm : goodMap m) :
    goodMap (overlayDiaryEntry m e) := by
  unfold overlayDiaryEntry
  split_ifs with he
  · exact hm
  · cases hg : mapGet m e.LetterboxdURI with
    | none => exact goodMap_mapSet m _ e hm rfl he
    | some ex =>
      refine goodMap_mapSet m _ _ hm ?_ he
      rw [mergeDiaryEntry_URI]
      exact (mapGet_good m _ ex hm hg).1

theorem goodMap_foldl_insert (films : List Entry) (m : FilmMap) (hm : goodMap m) :
    goodMap (films.foldl insertFilmEntry m) := by
  induction films generalizing m with
  | nil => exact hm
  | cons e fs ih => exact ih _ (goodMap_insertFilmEntry m e hm)

theorem goodMap_foldl_overlay (diary : List Entry) (m : FilmMap) (hm : goodMap m) :
    goodMap (diary.foldl overlayDiaryEntry m) := by
  induction diary generalizing m with
  | nil => exact hm
  | cons e ds ih => exact ih _ (goodMap_overlayDiaryEntry m e hm)

theorem goodMap_mergeMap (films diary : List Entry) : goodMap (mergeMap films diary) :=
  goodMap_foldl_overlay diary _ (goodMap_foldl_insert films [] goodMap_nil)

/-! ### Per-key characterisation of the two scalar folds -/

theorem seed_fold_none (films : List Entry) (k : String) (c : Option Entry) :
    films.foldl (fun c e => seedStep c e k) c = none ↔
      (c = none ∧ ∀ e ∈ films, e.LetterboxdURI ≠ k) := by
  induction films generalizing c with
  | nil => simp
  | cons e fs ih =>
    rw [List.foldl_cons, ih]
    unfold seedStep
    by_cases hek : e.LetterboxdURI = k
    · rw [if_pos hek]
      simp [hek]
    · rw [if_neg hek]
      constructor
      · rintro ⟨hc, hall⟩
        exact ⟨hc, fun x hx => by
          rcases List.mem_cons.mp hx with h | h
          · subst h; exact hek
          · exact hall x h⟩
      · rintro ⟨hc, hall⟩
        exact ⟨hc, fun x hx => hall x (List.mem_cons_of_mem e hx)⟩

theorem overlay_fold_none (diary : List Entry) (k : String) (c : Option Entry) :
    diary.foldl (fun c e => overlayStep c e k) c = none ↔
      (c = none ∧ ∀ e ∈ diary, e.LetterboxdURI ≠ k) := by
  induction diary generalizing c with
  | nil => simp
  | cons e ds ih =>
    rw [List.foldl_cons, ih]
    unfold overlayStep
    by_cases hek : e.LetterboxdURI = k
    · rw [if_pos hek]
      cases c with
      | none => simp [hek]
      | some ex => simp [hek]
    · rw [if_neg hek]
      constructor
      · rintro ⟨hc, hall⟩
        exact ⟨hc, fun x hx => by
          rcases List.mem_cons.mp hx with h | h
          · subst h; exact hek
          · exact hall x h⟩
      · rintro ⟨hc, hall⟩
        exact ⟨hc, fun x hx => hall x (List.mem_cons_of_mem e hx)⟩

theorem mapGet_eq_none_iff (m : FilmMap) (k : String) :
    mapGet m k = none ↔ k ∉ m.map Prod.fst := by
  unfold mapGet
  rw [Option.map_eq_none', List.find?_eq_none]
  constructor
  · intro h hk
    obtain ⟨p, hp, hpk⟩ := List.mem_map.mp hk
    exact h p hp (by simp [hpk])
  · intro h p hp hpk
    exact h (List.mem_map.mpr ⟨p, hp, by simpa using hpk⟩)

/-! ### Claim C1 -/

/-- Claim C1: for every pair of input lists, `merge` produces exactly one
record per distinct `filmKey` (`LetterboxdURI`) present in either list —
the output keys are duplicate-free, and a key occurs in the output iff it
is non-empty (keyless entries are discarded) and occurs in the films list
or the diary list. -/
theorem merge_one_record_per_key (films diary : List Entry) :
    ((merge films diary).map (fun e => e.LetterboxdURI)).Nodup ∧
    ∀ k : String,
      k ∈ (merge films diary).map (fun e => e.LetterboxdURI) ↔
        (k ≠ "" ∧ (k ∈ films.map (fun e => e.LetterboxdURI) ∨
                   k ∈ diary.map (fun e => e.LetterboxdURI))) := by
  have hgood := goodMap_mergeMap films diary
  have hkeys : (merge films diary).map (fun e => e.LetterboxdURI)
      = (mergeMap films diary).map Prod.fst := by
    unfold merge
    rw [List.map_map]
    exact List.map_congr_left (fun p hp => (hgood.1 p hp).1)
  constructor
  · rw [hkeys]; exact hgood.2
  · intro k
    rw [hkeys]
    by_cases hk : k = ""
    · subst hk
      constructor
      · intro h
        obtain ⟨p, hp, hpk⟩ := List.mem_map.mp h
        exact absurd hpk (hgood.1 p hp).2
      · rintro ⟨h, -⟩
        exact absurd rfl h
    · have hchar : mapGet (mergeMap films diary) k = none ↔
          ((∀ e ∈ films, e.LetterboxdURI ≠ k) ∧ (∀ e ∈ diary, e.LetterboxdURI ≠ k)) := by
        unfold mergeMap
        rw [mapGet_foldl_overlay _ _ _ hk, overlay_fold_none,
            mapGet_foldl_insert _ _ _ hk, seed_fold_none]
        simp [mapGet]
      have hmemget : k ∈ (mergeMap films diary).map Prod.fst ↔
          ¬ (mapGet (mergeMap films diary) k = none) := by
        constructor
        · intro h hnone
          exact (mapGet_eq_none_iff _ _).mp hnone h
        · intro h
          by_contra hk'
          exact h ((mapGet_eq_none_iff _ _).mpr hk')
      rw [hmemget, hchar]
      constructor
      · intro h
        refine ⟨hk, ?_⟩
        by_contra hno
        push_neg at hno
        exact h ⟨fun e he hc => hno.1 (List.mem_map.mpr ⟨e, he, hc⟩),
                 fun e he hc => hno.2 (List.mem_map.mpr ⟨e, he, hc⟩)⟩
      · rintro ⟨-, hor⟩ ⟨h1, h2⟩
        rcases hor with hmem | hmem
        · obtain ⟨e, he, hek⟩ := List.mem_map.mp hmem
          exact h1 e he hek
        · obtain ⟨e, he, hek⟩ := List.mem_map.mp hmem
          exact h2 e he hek

theorem merge_def (films diary : List Entry) :
    merge films diary = (mergeMap films diary).map Prod.snd := rfl

/-! ### Claim C2: watch-date propagation -/

/-- The watch date of the last diary entry for key `k` that carries a
non-empty `Date`. -/
def lastLogDate (diary : List Entry) (k : String) : Option String :=
  ((diary.filter (fun e => e.LetterboxdURI == k && !(e.Date == ""))).getLast?).map
    (fun e => e.Date)

theorem overlay_fold_date (k : String) :
    ∀ (diary : List Entry) (d : String) (c : Option Entry),
      lastLogDate diary k = some d →
      ∃ r, diary.foldl (fun c e => overlayStep c e k) c = some r ∧ r.Date = d := by
  intro diary
  induction diary using List.reverseRecOn with
  | nil => intro d c hd; cases hd
  | append_singleton ys e ih =>
    intro d c hd
    rw [List.foldl_append, List.foldl_cons, List.foldl_nil]
    by_cases hpe : e.LetterboxdURI = k ∧ e.Date ≠ ""
    · have hfilter : (ys ++ [e]).filter (fun e => e.LetterboxdURI == k && !(e.Date == ""))
          = ys.filter (fun e => e.LetterboxdURI == k && !(e.Date == "")) ++ [e] := by
        rw [List.filter_append]
        congr 1
        simp [hpe.1, hpe.2]
      have hde : d = e.Date := by
        unfold lastLogDate at hd
        rw [hfilter, List.getLast?_concat] at hd
        exact (Option.some.inj hd).symm
      subst hde
      cases hfold : ys.foldl (fun c e => overlayStep c e k) c with
      | none =>
        refine ⟨e, ?_, rfl⟩
        simp [overlayStep, hpe.1]
      | some ex =>
        refine ⟨mergeDiaryEntry ex e, ?_, ?_⟩
        · simp [overlayStep, hpe.1]
        · rw [mergeDiaryEntry_Date, if_neg hpe.2]
    · have hfilter : (ys ++ [e]).filter (fun e => e.LetterboxdURI == k && !(e.Date == ""))
          = ys.filter (fun e => e.LetterboxdURI == k && !(e.Date == "")) := by
        rw [List.filter_append]
        have hfe : (fun e : Entry => e.LetterboxdURI == k && !(e.Date == "")) e = false := by
          rcases not_and_or.mp hpe with h | h
          · simp [h]
          · simp [not_not.mp (fun hc => h hc)]
        rw [List.filter_cons, List.filter_nil]
        simp only [hfe]
        simp
      have hd' : lastLogDate ys k = some d := by
        unfold lastLogDate at hd ⊢
        rw [hfilter] at hd
        exact hd
      obtain ⟨r, hr, hrd⟩ := ih d c hd'
      rw [hr]
      by_cases hek : e.LetterboxdURI = k
      · have hdate : e.Date = "" := by
          rcases not_and_or.mp hpe with h | h
          · exact absurd hek h
          · exact not_not.mp (fun hc => h hc)
        refine ⟨mergeDiaryEntry r e, ?_, ?_⟩
        · simp [overlayStep, hek]
        · rw [mergeDiaryEntry_Date, if_pos hdate, hrd]
      · refine ⟨r, ?_, hrd⟩
        simp [overlayStep, hek]

def c2films : List Entry := [⟨"", "Film A", "2001", "/a/", "4"⟩]

def c2diary : List Entry :=
  [⟨"2022-05-01", "Film A", "", "/a/", ""⟩, ⟨"", "Film A", "", "/a/", ""⟩]

/-- Counterexample to claim C2 as stated: `watchDate` is NOT
unconditionally set from the log entry with the last log entry winning.
Here the key `/a/` was logged twice, the second (last) log entry has an
empty `Date` (the code's `if (entry.Date)` guard skips it, line 818), so
the merged record keeps the first entry's date `"2022-05-01"` while the
last log entry's date is `""`. -/
theorem merge_watchDate_not_last_entry :
    ((merge c2films c2diary).map (fun e => e.Date) = ["2022-05-01"]) ∧
    (c2diary.getLast?.map (fun e => e.Date) = some "") := by decide

/-- Claim C2 (amended): the merged record's `watchDate` comes from the
last log entry for that key that has a NON-EMPTY watch date (log entries
with an empty date leave the field unchanged); whenever such an entry
exists — whether the key is in both lists or only in the log list — the
merged record exists and carries that date. -/
theorem merge_watchDate_last_nonempty (films diary : List Entry) (k d : String)
    (hk : k ≠ "") (hd : lastLogDate diary k = some d) :
    (∃ e, e ∈ merge films diary ∧ e.LetterboxdURI = k ∧ e.Date = d) ∧
    (∀ e, e ∈ merge films diary → e.LetterboxdURI = k → e.Date = d) := by
  have hgood := goodMap_mergeMap films diary
  obtain ⟨r, hr, hrd⟩ := overlay_fold_date k diary d
    (mapGet (films.foldl insertFilmEntry []) k) hd
  have hget : mapGet (mergeMap films diary) k = some r := by
    unfold mergeMap
    rw [mapGet_foldl_overlay _ _ _ hk, hr]
  have hrprops := mapGet_good _ _ _ hgood hget
  constructor
  · exact ⟨r, (merge_def films diary) ▸ hrprops.2, hrprops.1, hrd⟩
  · intro e he hek
    have hme : mapGet (mergeMap films diary) e.LetterboxdURI = some e :=
      good_mem_get _ _ hgood ((merge_def films diary) ▸ he)
    rw [hek] at hme
    have hre : r = e := Option.some.inj (hget.symm.trans hme)
    exact hre ▸ hrd

/-- Witness for the amended C2 at the counterexample input: the merged
record for `/a/` exists and carries `"2022-05-01"`, the date of the last
log entry with a non-empty date. -/
theorem merge_watchDate_last_nonempty_witness :
    ∃ e, e ∈ merge c2films c2diary ∧ e.LetterboxdURI = "/a/" ∧ e.Date = "2022-05-01" :=
  (merge_watchDate_last_nonempty c2films c2diary "/a/" "2022-05-01"
    (by decide) (by decide)).1

/-! ### Claim C3: grid precedence for rating and year -/

theorem seed_fold_unique (k : String) (g : Entry) :
    ∀ (films : List Entry), (∀ x ∈ films, x.LetterboxdURI = k → x = g) →
    ∀ c, films.foldl (fun c e => seedStep c e k) c
      = if films.any (fun e => e.LetterboxdURI == k) then some g else c := by
  intro films
  induction films with
  | nil => intro _ c; simp
  | cons e fs ih =>
    intro huniq c
    rw [List.foldl_cons, List.any_cons]
    by_cases hek : e.LetterboxdURI = k
    · have heg : e = g := huniq e (List.mem_cons_self e fs) hek
      have hstep : seedStep c e k = some g := by
        rw [seedStep, if_pos hek, heg]
      rw [hstep, ih (fun x hx hxk => huniq x (List.mem_cons_of_mem e hx) hxk) (some g)]
      have hbeq : (e.LetterboxdURI == k) = true := by simp [hek]
      rw [hbeq, Bool.true_or, if_pos rfl]
      split_ifs <;> rfl
    · have hstep : seedStep c e k = c := by
        rw [seedStep, if_neg hek]
      have hbeq : (e.LetterboxdURI == k) = false := by simp [hek]
      rw [hstep, ih (fun x hx hxk => huniq x (List.mem_cons_of_mem e hx) hxk) c,
        hbeq, Bool.false_or]

theorem overlay_fold_preserves (k : String) (g : Entry) :
    ∀ (diary : List Entry) (ex : Entry),
      ((g.Rating ≠ "" → ex.Rating = g.Rating) ∧ (g.Year ≠ "" → ex.Year = g.Year)) →
      ∃ r, diary.foldl (fun c e => overlayStep c e k) (some ex) = some r ∧
        (g.Rating ≠ "" → r.Rating = g.Rating) ∧ (g.Year ≠ "" → r.Year = g.Year) := by
  intro diary
  induction diary with
  | nil =>
    intro ex hex
    exact ⟨ex, rfl, hex⟩
  | cons e ds ih =>
    intro ex hex
    rw [List.foldl_cons]
    by_cases hek : e.LetterboxdURI = k
    · have hstep : overlayStep (some ex) e k = some (mergeDiaryEntry ex e) := by
        simp [overlayStep, hek]
      rw [hstep]
      refine ih (mergeDiaryEntry ex e) ⟨?_, ?_⟩
      · intro hgr
        rw [mergeDiaryEntry_Rating, if_neg]
        · exact hex.1 hgr
        · rintro ⟨h1, -⟩
          rw [hex.1 hgr] at h1
          exact hgr h1
      · intro hgy
        rw [mergeDiaryEntry_Year, if_neg]
        · exact hex.2 hgy
        · rintro ⟨h1, -⟩
          rw [hex.2 hgy] at h1
          exact hgy h1
    · have hstep : overlayStep (some ex) e k = some ex := by
        simp [overlayStep, hek]
      rw [hstep]
      exact ih ex hex

/-- Claim C3: when a filmKey occurs in the grid (films) list — as the
unique grid entry `g` for that key — with a non-empty rating, the merged
record's rating equals the grid's rating, regardless of the diary list;
the same fill-only-when-empty precedence holds for the release year. -/
theorem merge_grid_precedence (films diary : List Entry) (g : Entry)
    (hmem : g ∈ films) (hk : g.LetterboxdURI ≠ "")
    (huniq : ∀ x ∈ films, x.LetterboxdURI = g.LetterboxdURI → x = g) :
    ∀ e, e ∈ merge films diary → e.LetterboxdURI = g.LetterboxdURI →
      (g.Rating ≠ "" → e.Rating = g.Rating) ∧ (g.Year ≠ "" → e.Year = g.Year) := by
  have hgood := goodMap_mergeMap films diary
  have hseed : mapGet (films.foldl insertFilmEntry []) g.LetterboxdURI = some g := by
    rw [mapGet_foldl_insert _ _ _ hk, seed_fold_unique g.LetterboxdURI g films huniq _,
      if_pos (List.any_eq_true.mpr ⟨g, hmem, by simp⟩)]
  obtain ⟨r, hr, hrprops⟩ := overlay_fold_preserves g.LetterboxdURI g diary g
    ⟨fun _ => rfl, fun _ => rfl⟩
  have hget : mapGet (mergeMap films diary) g.LetterboxdURI = some r := by
    unfold mergeMap
    rw [mapGet_foldl_overlay _ _ _ hk, hseed, hr]
  intro e he hek
  have hme : mapGet (mergeMap films diary) e.LetterboxdURI = some e :=
    good_mem_get _ _ hgood ((merge_def films diary) ▸ he)
  rw [hek] at hme
  have hre : r = e := Option.some.inj (hget.symm.trans hme)
  exact hre ▸ hrprops

def c3films : List Entry := [⟨"", "Film A", "2001", "/a/", "4"⟩]

def c3diary : List Entry := [⟨"2022-05-01", "Film A", "", "/a/", ""⟩]

/-- Witness for C3, instantiated at the spec's worked scenario: the grid
has `/a/` rated `"4"` with year `"2001"`; whatever the single-record log
says, the merged record keeps rating `"4"` and year `"2001"` (and the
whole merged record matches the spec's expected output). -/
theorem merge_grid_precedence_witness :
    (∀ e, e ∈ merge c3films c3diary → e.LetterboxdURI = "/a/" →
      e.Rating = "4" ∧ e.Year = "2001") ∧
    merge c3films c3diary = [⟨"2022-05-01", "Film A", "2001", "/a/", "4"⟩] := by
  constructor
  · intro e he hek
    have h := merge_grid_precedence c3films c3diary ⟨"", "Film A", "2001", "/a/", "4"⟩
      (by decide) (by decide) (by decide) e he (by rw [hek])
    exact ⟨h.1 (by decide), h.2 (by decide)⟩
  · decide

/-! ### Claim C9: `normalizeTitleForSearch` (lines 72-83) -/

/-- A plain space, the replacement character of `.replace(/\s+/g, ' ')`. -/
def spChar : Char := Char.ofNat 32

/-- The character class of the JS regex `\s` (ECMAScript WhiteSpace plus
LineTerminator), which is also exactly the set trimmed by
`String.prototype.trim`. -/
def isJsSpace (c : Char) : Bool :=
  (c.toNat = 9) || (c.toNat = 10) || (c.toNat = 11) || (c.toNat = 12) || (c.toNat = 13) ||
  (c.toNat = 32) || (c.toNat = 160) || (c.toNat = 5760) ||
  (8192 ≤ c.toNat && c.toNat ≤ 8202) ||
  (c.toNat = 8232) || (c.toNat = 8233) || (c.toNat = 8239) ||
  (c.toNat = 8287) || (c.toNat = 12288) || (c.toNat = 65279)

/-- Lines 74-79: the three per-character class replacements — unicode
dashes U+2012..U+2015 (8210..8213) become a hyphen (45), curly single
quotes U+2018/U+2019 become an apostrophe (39), curly double quotes
U+201C/U+201D become a straight quote (34). -/
def normChar (c : Char) : Char :=
  if 8210 ≤ c.toNat ∧ c.toNat ≤ 8213 then Char.ofNat 45
  else if c.toNat = 8216 ∨ c.toNat = 8217 then Char.ofNat 39
  else if c.toNat = 8220 ∨ c.toNat = 8221 then Char.ofNat 34
  else c

/-- `.replace(/\s+/g, ' ')` (line 81): every maximal whitespace run is
replaced by a single space.  Processing from the right: a whitespace
character is dropped when the collapsed tail already starts with the
space standing for its run, otherwise it contributes that space. -/
def collapseWs : List Char → List Char
  | [] => []
  | c :: rest =>
    if isJsSpace c then
      match collapseWs rest with
      | [] => [spChar]
      | d :: tail => if isJsSpace d then d :: tail else spChar :: d :: tail
    else c :: collapseWs rest

/-- `.trim()` (line 82): drop leading and trailing whitespace. -/
def trimWs (l : List Char) : List Char :=
  (((l.dropWhile isJsSpace).reverse).dropWhile isJsSpace).reverse

/-- `normalizeTitleForSearch` (lines 72-83): the falsy guard, the three
character replacements, whitespace collapsing and trimming. -/
def normalizeTitleForSearch (s : String) : String :=
  if s = "" then ""
  else String.mk (trimWs (collapseWs (s.data.map normChar)))

-- Spot checks against the JS behaviour.
example : normalizeTitleForSearch (String.mk [Char.ofNat 32, Char.ofNat 97, Char.ofNat 9,
    Char.ofNat 9, Char.ofNat 98, Char.ofNat 32]) = String.mk [Char.ofNat 97, Char.ofNat 32,
    Char.ofNat 98] := by decide

example : normalizeTitleForSearch (String.mk [Char.ofNat 8211, Char.ofNat 8216]) =
    String.mk [Char.ofNat 45, Char.ofNat 39] := by decide

theorem normChar_idem (c : Char) : normChar (normChar c) = normChar c := by
  by_cases h1 : 8210 ≤ c.toNat ∧ c.toNat ≤ 8213
  · have hc : normChar c = Char.ofNat 45 := by unfold normChar; rw [if_pos h1]
    rw [hc]; decide
  · by_cases h2 : c.toNat = 8216 ∨ c.toNat = 8217
    · have hc : normChar c = Char.ofNat 39 := by unfold normChar; rw [if_neg h1, if_pos h2]
      rw [hc]; decide
    · by_cases h3 : c.toNat = 8220 ∨ c.toNat = 8221
      · have hc : normChar c = Char.ofNat 34 := by
          unfold normChar; rw [if_neg h1, if_neg h2, if_pos h3]
        rw [hc]; decide
      · have hc : normChar c = c := by unfold normChar; rw [if_neg h1, if_neg h2, if_neg h3]
        rw [hc, hc]

theorem collapseWs_cons_ws_nil (a : Char) (rest : List Char)
    (ha : isJsSpace a = true) (ht : collapseWs rest = []) :
    collapseWs (a :: rest) = [spChar] := by
  rw [collapseWs, if_pos ha, ht]

theorem collapseWs_cons_ws_cons (a d : Char) (rest tail : List Char)
    (ha : isJsSpace a = true) (ht : collapseWs rest = d :: tail) :
    collapseWs (a :: rest)
      = if isJsSpace d = true then d :: tail else spChar :: d :: tail := by
  rw [collapseWs, if_pos ha, ht]

theorem mem_collapseWs (c : Char) :
    ∀ (l : List Char), c ∈ collapseWs l → c ∈ l ∨ c = spChar := by
  intro l
  induction l with
  | nil => intro hc; cases hc
  | cons a rest ih =>
    intro hc
    by_cases ha : isJsSpace a = true
    · cases ht : collapseWs rest with
      | nil =>
        rw [collapseWs_cons_ws_nil a rest ha ht] at hc
        simp only [List.mem_singleton] at hc
        exact Or.inr hc
      | cons d tail =>
        rw [collapseWs_cons_ws_cons a d rest tail ha ht] at hc
        by_cases hd : isJsSpace d = true
        · rw [if_pos hd] at hc
          rcases ih (ht ▸ hc) with h | h
          · exact Or.inl (List.mem_cons_of_mem a h)
          · exact Or.inr h
        · rw [if_neg hd] at hc
          rcases List.mem_cons.mp hc with h | h
          · exact Or.inr h
          · rcases ih (ht ▸ h) with h' | h'
            · exact Or.inl (List.mem_cons_of_mem a h')
            · exact Or.inr h'
    · rw [collapseWs, if_neg ha] at hc
      rcases List.mem_cons.mp hc with h | h
      · exact Or.inl (h ▸ List.mem_cons_self a rest)
      · rcases ih h with h' | h'
        · exact Or.inl (List.mem_cons_of_mem a h')
        · exact Or.inr h'

/-- Canonical whitespace shape: every whitespace character is a plain
space and no two adjacent characters are both whitespace. -/
def wsCanon (l : List Char) : Prop :=
  (∀ c ∈ l, isJsSpace c = true → c = spChar) ∧
  l.Chain' (fun a b => ¬(isJsSpace a = true ∧ isJsSpace b = true))

theorem wsCanon_collapseWs (l : List Char) : wsCanon (collapseWs l) := by
  induction l with
  | nil => exact ⟨fun c hc => absurd hc (List.not_mem_nil c), List.chain'_nil⟩
  | cons a rest ih =>
    by_cases ha : isJsSpace a = true
    · cases ht : collapseWs rest with
      | nil =>
        rw [collapseWs_cons_ws_nil a rest ha ht]
        refine ⟨?_, List.chain'_singleton _⟩
        intro c hc _
        simpa using hc
      | cons d tail =>
        rw [collapseWs_cons_ws_cons a d rest tail ha ht]
        rw [ht] at ih
        by_cases hd : isJsSpace d = true
        · rw [if_pos hd]
          exact ih
        · rw [if_neg hd]
          refine ⟨?_, ?_⟩
          · intro c hc hw
            rcases List.mem_cons.mp hc with h | h
            · exact h
            · exact ih.1 c h hw
          · rw [List.chain'_cons']
            refine ⟨?_, ih.2⟩
            intro y hy
            rw [List.head?_cons, Option.mem_def] at hy
            cases hy
            exact fun hco => hd hco.2
    · rw [collapseWs, if_neg ha]
      refine ⟨?_, ?_⟩
      · intro c hc hw
        rcases List.mem_cons.mp hc with h | h
        · exact absurd (h ▸ hw) ha
        · exact ih.1 c h hw
      · rw [List.chain'_cons']
        exact ⟨fun y _ hco => ha hco.1, ih.2⟩

theorem wsCanon_tail (a : Char) (rest : List Char) (h : wsCanon (a :: rest)) :
    wsCanon rest :=
  ⟨fun c hc hw => h.1 c (List.mem_cons_of_mem a hc) hw, h.2.tail⟩

theorem collapseWs_of_wsCanon (l : List Char) (h : wsCanon l) : collapseWs l = l := by
  induction l with
  | nil => rfl
  | cons a rest ih =>
    have hrest := ih (wsCanon_tail a rest h)
    by_cases ha : isJsSpace a = true
    · have hasp : a = spChar := h.1 a (List.mem_cons_self a rest) ha
      cases rest with
      | nil =>
        rw [collapseWs_cons_ws_nil a [] ha rfl, hasp]
      | cons d tail =>
        have hd : ¬ isJsSpace d = true := by
          have hcc := List.chain'_cons.mp h.2
          exact fun hdw => hcc.1 ⟨ha, hdw⟩
        rw [collapseWs_cons_ws_cons a d (d :: tail) tail ha hrest, if_neg hd, hasp]
    · rw [collapseWs, if_neg ha, hrest]

theorem dropWhile_head_false (p : Char → Bool) :
    ∀ (l : List Char) (c : Char), (l.dropWhile p).head? = some c → p c = false := by
  intro l
  induction l with
  | nil => intro c hc; cases hc
  | cons a rest ih =>
    intro c hc
    rw [List.dropWhile_cons] at hc
    split_ifs at hc with ha
    · exact ih c hc
    · rw [List.head?_cons] at hc
      cases hc
      exact Bool.not_eq_true _ ▸ ha

theorem dropWhile_self_of_head_false (p : Char → Bool) (l : List Char)
    (h : ∀ c, l.head? = some c → p c = false) : l.dropWhile p = l := by
  cases l with
  | nil => rfl
  | cons a rest =>
    rw [List.dropWhile_cons, if_neg]
    rw [h a rfl]
    exact fun hc => nomatch hc

theorem mem_trimWs (l : List Char) (c : Char) (hc : c ∈ trimWs l) : c ∈ l := by
  unfold trimWs at hc
  rw [List.mem_reverse] at hc
  have h1 := (List.dropWhile_suffix isJsSpace).subset hc
  rw [List.mem_reverse] at h1
  exact (List.dropWhile_suffix isJsSpace).subset h1

theorem chain'_noWsPair_reverse (l : List Char)
    (h : l.Chain' (fun a b => ¬(isJsSpace a = true ∧ isJsSpace b = true))) :
    l.reverse.Chain' (fun a b => ¬(isJsSpace a = true ∧ isJsSpace b = true)) := by
  rw [List.chain'_reverse]
  exact h.imp (fun a b hab hc => hab ⟨hc.2, hc.1⟩)

theorem wsCanon_trimWs (l : List Char) (h : wsCanon l) : wsCanon (trimWs l) := by
  refine ⟨fun c hc hw => h.1 c (mem_trimWs l c hc) hw, ?_⟩
  unfold trimWs
  apply chain'_noWsPair_reverse
  refine List.Chain'.suffix ?_ (List.dropWhile_suffix _)
  apply chain'_noWsPair_reverse
  exact List.Chain'.suffix h.2 (List.dropWhile_suffix _)

theorem trimWs_idem (l : List Char) : trimWs (trimWs l) = trimWs l := by
  have h1 : (trimWs l).dropWhile isJsSpace = trimWs l := by
    apply dropWhile_self_of_head_false
    intro c hc
    unfold trimWs at hc
    have hsuf : (l.dropWhile isJsSpace).reverse.dropWhile isJsSpace
        <:+ (l.dropWhile isJsSpace).reverse := List.dropWhile_suffix _
    have hpre : ((l.dropWhile isJsSpace).reverse.dropWhile isJsSpace).reverse
        <+: l.dropWhile isJsSpace := by
      apply List.reverse_suffix.mp
      rw [List.reverse_reverse]
      exact hsuf
    obtain ⟨t, ht⟩ := hpre
    cases hbr : ((l.dropWhile isJsSpace).reverse.dropWhile isJsSpace).reverse with
    | nil => rw [hbr] at hc; cases hc
    | cons c0 bs =>
      rw [hbr] at hc ht
      rw [List.head?_cons] at hc
      injection hc with hcc
      rw [← hcc]
      apply dropWhile_head_false isJsSpace l c0
      rw [← ht]
      rfl
  show (((trimWs l).dropWhile isJsSpace).reverse.dropWhile isJsSpace).reverse = trimWs l
  rw [h1]
  have h2 : ((trimWs l).reverse).dropWhile isJsSpace = (trimWs l).reverse := by
    apply dropWhile_self_of_head_false
    intro c hc
    unfold trimWs at hc
    rw [List.reverse_reverse] at hc
    exact dropWhile_head_false isJsSpace ((l.dropWhile isJsSpace).reverse) c hc
  rw [h2, List.reverse_reverse]

theorem normalize_list_fixed (l : List Char) :
    trimWs (collapseWs ((trimWs (collapseWs (l.map normChar))).map normChar))
      = trimWs (collapseWs (l.map normChar)) := by
  have hfix : (trimWs (collapseWs (l.map normChar))).map normChar
      = trimWs (collapseWs (l.map normChar)) := by
    have hpt : ∀ c ∈ trimWs (collapseWs (l.map normChar)), normChar c = c := by
      intro c hc
      have hcu := mem_trimWs _ c hc
      rcases mem_collapseWs c (l.map normChar) hcu with hcl | hsp
      · obtain ⟨a, -, hca⟩ := List.mem_map.mp hcl
        rw [← hca]
        exact normChar_idem a
      · rw [hsp]; decide
    calc (trimWs (collapseWs (l.map normChar))).map normChar
        = (trimWs (collapseWs (l.map normChar))).map id := List.map_congr_left hpt
      _ = trimWs (collapseWs (l.map normChar)) := List.map_id _
  rw [hfix, collapseWs_of_wsCanon _ (wsCanon_trimWs _ (wsCanon_collapseWs _)), trimWs_idem]

/-- Claim C9: `normalizeTitleForSearch` is idempotent — normalizing an
already-normalized string returns it unchanged. -/
theorem normalizeTitleForSearch_idempotent (s : String) :
    normalizeTitleForSearch (normalizeTitleForSearch s) = normalizeTitleForSearch s := by
  by_cases h1 : s = ""
  · subst h1; rfl
  · have hs : normalizeTitleForSearch s
        = String.mk (trimWs (collapseWs (s.data.map normChar))) := by
      unfold normalizeTitleForSearch
      rw [if_neg h1]
    by_cases h2 : normalizeTitleForSearch s = ""
    · rw [h2]
      rfl
    · rw [hs] at h2 ⊢
      unfold normalizeTitleForSearch
      rw [if_neg h2]
      exact congrArg String.mk (normalize_list_fixed s.data)

/-! ### Pagination (`scrapeFullDiary` lines 411-425, `scrapeFullFilms`
lines 487-497)

A page fetch (`fetchHtml` + cheerio parse) is abstracted as an oracle
`Nat → Except String (List Entry × Bool)` mapping a page number to either
a transport error (a thrown exception) or the page's parsed entries plus
the `hasNext` flag.  The `while (page <= maxPages)` loop is embedded with
the remaining page budget as fuel. -/

/-- The body of `scrapeFullDiary`'s loop: break (returning the
accumulator, still empty) when page 1 yields no entries; otherwise append
the entries and continue while `hasNext` holds and pages remain.  An
oracle error propagates — the function has no internal `try`/`catch`. -/
def diaryLoop (fetch : Nat → Except String (List Entry × Bool)) :
    Nat → Nat → List Entry → Except String (List Entry)
  | _, 0, acc => Except.ok acc
  | page, fuel + 1, acc =>
    match fetch page with
    | Except.error msg => Except.error msg
    | Except.ok (entries, hasNext) =>
      if entries.length = 0 ∧ page = 1 then Except.ok acc
      else if hasNext then diaryLoop fetch (page + 1) fuel (acc ++ entries)
      else Except.ok (acc ++ entries)

/-- `scrapeFullDiary(username, maxPages = 10)`. -/
def scrapeFullDiary (fetch : Nat → Except String (List Entry × Bool))
    (maxPages : Nat := 10) : Except String (List Entry) :=
  diaryLoop fetch 1 maxPages []

/-- The body of `scrapeFullFilms`'s loop: identical to the diary loop
except that it has NO empty-first-page break. -/
def filmsLoop (fetch : Nat → Except String (List Entry × Bool)) :
    Nat → Nat → List Entry → Except String (List Entry)
  | _, 0, acc => Except.ok acc
  | page, fuel + 1, acc =>
    match fetch page with
    | Except.error msg => Except.error msg
    | Except.ok (entries, hasNext) =>
      if hasNext then filmsLoop fetch (page + 1) fuel (acc ++ entries)
      else Except.ok (acc ++ entries)

/-- `scrapeFullFilms(username, maxPages = 20)`. -/
def scrapeFullFilms (fetch : Nat → Except String (List Entry × Bool))
    (maxPages : Nat := 20) : Except String (List Entry) :=
  filmsLoop fetch 1 maxPages []

/-! ### Claim C5 -/

def c5entry : Entry := ⟨"", "Page Two Film", "1999", "/b/", ""⟩

/-- A films-page oracle whose first page is empty but reports a next
page, and whose second page carries one entry. -/
def c5fetch : Nat → Except String (List Entry × Bool) := fun p =>
  if p = 1 then Except.ok ([], true)
  else if p = 2 then Except.ok ([c5entry], false)
  else Except.ok ([], false)

/-- Counterexample to claim C5 as stated: the claim says BOTH listing
kinds stop immediately with an empty list when page 1 yields zero
entries.  `scrapeFullFilms` has no such check: with an empty page 1 that
reports a next page it goes on to fetch page 2 and returns that page's
entry, not the empty list. -/
theorem films_empty_first_page_continues :
    scrapeFullFilms c5fetch 20 = Except.ok [c5entry] ∧
    Except.ok [c5entry] ≠ (Except.ok [] : Except String (List Entry)) := by
  constructor
  · rfl
  · intro hc
    cases (Except.ok.inj hc)

/-- Claim C5 (amended): only the log/diary listing treats an empty first
page as "no data": whatever the rest of the oracle does (including the
page reporting `hasNext = true`), `scrapeFullDiary` stops immediately and
returns the empty list.  The films/grid listing has no such check (see
the counterexample). -/
theorem diary_empty_first_page_stops (fetch : Nat → Except String (List Entry × Bool))
    (b : Bool) (n : Nat) (h : fetch 1 = Except.ok ([], b)) :
    scrapeFullDiary fetch n = Except.ok [] := by
  unfold scrapeFullDiary
  cases n with
  | zero => rfl
  | succ m =>
    rw [diaryLoop, h]
    simp

/-- Witness for the amended C5: a diary oracle whose page 1 is empty with
`hasNext = true` still yields the empty list. -/
theorem diary_empty_first_page_stops_witness :
    scrapeFullDiary (fun _ => Except.ok ([], true)) 10 = Except.ok [] :=
  diary_empty_first_page_stops (fun _ => Except.ok ([], true)) true 10 rfl

/-! ### Tiered TMDB search (`searchTMDB`, lines 499-549)

Each `runSearch` call is abstracted as one oracle field holding either a
thrown transport error or the provider's result list (already specialised
to this record's normalized title, so only the three distinct
path/parameter combinations remain).  `searchTMDB` additionally returns
the list of tiers it actually queried, in order. -/

/-- One entry of a TMDB search `results` array, with the fields the code
reads.  `popularity` is the provider's score (`|| 0` when absent). -/
structure TMDBResult where
  id : Nat
  media_type : String
  popularity : Option Int
  poster_path : Option String
  backdrop_path : Option String
  original_language : Option String
deriving DecidableEq

/-- The three search requests `searchTMDB` can issue for one record. -/
structure SearchOracle where
  movieWithYear : Except String (List TMDBResult)
  movieNoYear : Except String (List TMDBResult)
  multi : Except String (List TMDBResult)

inductive Tier
  | withYear
  | noYear
  | multi
deriving DecidableEq

/-- `r.popularity || 0`. -/
def popOf (r : TMDBResult) : Int := r.popularity.getD 0

/-- Stable insertion of `a` behind every at-least-as-popular element of
a descending-sorted list: `a` goes in front of the first strictly less
popular element, so elements of equal popularity keep their original
relative order. -/
def insertByPop (a : TMDBResult) : List TMDBResult → List TMDBResult
  | [] => [a]
  | b :: t => if popOf b < popOf a then a :: b :: t else b :: insertByPop a t

/-- `.sort((a, b) => (b.popularity || 0) - (a.popularity || 0))`
(line 543): ECMAScript `Array.prototype.sort` is a stable sort consistent
with the comparator, here embedded as a stable insertion sort by
descending popularity. -/
def sortByPopularityDesc (rs : List TMDBResult) : List TMDBResult :=
  rs.foldl (fun acc a => insertByPop a acc) []

/-- `results.filter(r => r.media_type === 'movie' || r.media_type === 'tv')`
(line 541). -/
def multiFiltered (rs : List TMDBResult) : List TMDBResult :=
  rs.filter (fun r => r.media_type == "movie" || r.media_type == "tv")

/-- Tier 3 (lines 538-546): multi search, filter to the two understood
kinds, sort by popularity, take the top result with its own media type. -/
def searchTier3 (o : SearchOracle) :
    Except String (Option (TMDBResult × String)) × List Tier :=
  match o.multi with
  | Except.error msg => (Except.error msg, [Tier.multi])
  | Except.ok rs =>
    match sortByPopularityDesc (multiFiltered rs) with
    | [] => (Except.ok none, [Tier.multi])
    | best :: _ => (Except.ok (some (best, best.media_type)), [Tier.multi])

/-- Tier 2 (lines 530-536): movie search without year; falls through to
tier 3 on an empty result list. -/
def searchTier2 (o : SearchOracle) :
    Except String (Option (TMDBResult × String)) × List Tier :=
  match o.movieNoYear with
  | Except.error msg => (Except.error msg, [Tier.noYear])
  | Except.ok [] => ((searchTier3 o).1, Tier.noYear :: (searchTier3 o).2)
  | Except.ok (x :: _) => (Except.ok (some (x, "movie")), [Tier.noYear])

/-- `searchTMDB` (lines 499-549): tier 1 (year-scoped movie search) runs
only when `movie.Year` is truthy; an exhausted ladder returns
`{ match: null, mediaType: null }` (`none`); a thrown search propagates. -/
def searchTMDB (movie : Entry) (o : SearchOracle) :
    Except String (Option (TMDBResult × String)) × List Tier :=
  if movie.Year = "" then searchTier2 o
  else
    match o.movieWithYear with
    | Except.error msg => (Except.error msg, [Tier.withYear])
    | Except.ok [] => ((searchTier2 o).1, Tier.withYear :: (searchTier2 o).2)
    | Except.ok (x :: _) => (Except.ok (some (x, "movie")), [Tier.withYear])

theorem mem_insertByPop (a x : TMDBResult) :
    ∀ (l : List TMDBResult), x ∈ insertByPop a l ↔ x = a ∨ x ∈ l := by
  intro l
  induction l with
  | nil => simp [insertByPop]
  | cons b t ih =>
    rw [insertByPop]
    split_ifs with hb
    · simp [List.mem_cons]
    · rw [List.mem_cons, ih, List.mem_cons]
      tauto

theorem insertByPop_sorted (a : TMDBResult) :
    ∀ (l : List TMDBResult),
      l.Pairwise (fun x y => popOf y ≤ popOf x) →
      (insertByPop a l).Pairwise (fun x y => popOf y ≤ popOf x) := by
  intro l
  induction l with
  | nil =>
    intro _
    simp [insertByPop]
  | cons b t ih =>
    intro hs
    obtain ⟨hb, ht⟩ := List.pairwise_cons.mp hs
    rw [insertByPop]
    split_ifs with hba
    · rw [List.pairwise_cons]
      refine ⟨?_, hs⟩
      intro y hy
      rcases List.mem_cons.mp hy with h | h
      · subst h
        exact le_of_lt hba
      · exact le_trans (hb y h) (le_of_lt hba)
    · rw [List.pairwise_cons]
      refine ⟨?_, ih ht⟩
      intro y hy
      rcases (mem_insertByPop a y t).mp hy with h | h
      · subst h
        exact le_of_not_lt hba
      · exact hb y h

theorem sortByPopularityDesc_sorted_mem (rs : List TMDBResult) :
    (sortByPopularityDesc rs).Pairwise (fun x y => popOf y ≤ popOf x) ∧
    ∀ x, x ∈ sortByPopularityDesc rs ↔ x ∈ rs := by
  have H : ∀ (l acc : List TMDBResult),
      acc.Pairwise (fun x y => popOf y ≤ popOf x) →
      (l.foldl (fun acc a => insertByPop a acc) acc).Pairwise
          (fun x y => popOf y ≤ popOf x) ∧
      ∀ x, x ∈ l.foldl (fun acc a => insertByPop a acc) acc ↔ (x ∈ acc ∨ x ∈ l) := by
    intro l
    induction l with
    | nil =>
      intro acc hacc
      refine ⟨hacc, ?_⟩
      intro x
      simp
    | cons a t ih =>
      intro acc hacc
      rw [List.foldl_cons]
      obtain ⟨h1, h2⟩ := ih (insertByPop a acc) (insertByPop_sorted a acc hacc)
      refine ⟨h1, ?_⟩
      intro x
      rw [h2 x, mem_insertByPop, List.mem_cons]
      tauto
  obtain ⟨h1, h2⟩ := H rs [] List.Pairwise.nil
  refine ⟨h1, ?_⟩
  intro x
  rw [sortByPopularityDesc, h2 x]
  simp

/-- The head of the descending-popularity sort dominates every element of
the input list. -/
theorem sort_head_max (rs : List TMDBResult) (b : TMDBResult) (bs : List TMDBResult)
    (h : sortByPopularityDesc rs = b :: bs) :
    ∀ r ∈ rs, popOf r ≤ popOf b := by
  intro r hr
  obtain ⟨hsorted, hmem⟩ := sortByPopularityDesc_sorted_mem rs
  rw [h] at hsorted
  have hrin : r ∈ b :: bs := by
    rw [← h]
    exact (hmem r).mpr hr
  rcases List.mem_cons.mp hrin with h1 | h1
  · subst h1
    exact le_refl _
  · exact (List.pairwise_cons.mp hsorted).1 r h1

/-! ### Provider enrichment (`enrichWithTMDB`, lines 551-665) -/

/-- One person record from the TMDB `credits` payload. -/
structure CreditPerson where
  id : Nat
  name : String
  job : String
  department : String
deriving DecidableEq

/-- The fields of the TMDB details response the code reads. -/
structure DetailsData where
  genres : List String
  production_countries : List String
  runtime : Option Nat
  episode_run_time : List Nat
  crew : List CreditPerson
  cast : List CreditPerson
deriving DecidableEq

/-- Lines 615-621 and 630: the numeric `runtime` when present, else the
first `episode_run_time` entry, else 0. -/
def runtimeOf (d : DetailsData) : Nat :=
  match d.runtime with
  | some r => r
  | none =>
    match d.episode_run_time with
    | r :: _ => r
    | [] => 0

/-- The `tmdbPayload` of a successful match (lines 623-633). -/
structure ProviderFields where
  poster_path : Option String
  backdrop_path : Option String
  genres : List String
  production_countries : List String
  original_language : Option String
  tmdb_id : Nat
  runtime : Nat
  directors : List (Nat × String)
  cast : List (Nat × String)
deriving DecidableEq

def mkProviderFields (m : TMDBResult) (d : DetailsData) : ProviderFields :=
  { poster_path := m.poster_path
    backdrop_path := m.backdrop_path
    genres := d.genres
    production_countries := d.production_countries
    original_language := m.original_language
    tmdb_id := m.id
    runtime := runtimeOf d
    directors := (d.crew.filter (fun p => p.job == "Director" || p.job == "Series Director"
      || p.department == "Directing")).map (fun p => (p.id, p.name))
    cast := (d.cast.take 10).map (fun p => (p.id, p.name)) }

/-- What `enrichWithTMDB` spreads onto a record: full provider fields, a
`notFound: true` marker, or an `error: true` marker. -/
inductive TmdbPayload
  | found (fields : ProviderFields)
  | notFound
  | errored
deriving DecidableEq

/-- The native-detail fields `scrapeLetterboxdFilmMeta` produces
(lines 110-318): cast (name + optional character), crew (name + job),
studios, countries, genres, themes, poster URL. -/
structure NativeDetail where
  lbCast : List (String × Option String)
  lbCrew : List (String × String)
  lbStudios : List String
  lbCountries : List String
  lbGenres : List String
  lbThemes : List String
  lbPosterUrl : Option String
deriving DecidableEq

/-- A pipeline record: the merged entry plus the optional field groups
each enrichment stage spreads onto it. -/
structure Movie where
  entry : Entry
  lbMeta : Option NativeDetail := none
  tmdb : Option TmdbPayload := none
deriving DecidableEq

/-- The effects `enrichWithTMDB` can have for one record: the per-film
cache lookup (key built from the record's name and year, line 565), the
per-record tiered search, and the details fetch. -/
structure TmdbOracle where
  apiKeyPresent : Bool
  hasCache : Bool
  cacheGet : Entry → Except String (Option TmdbPayload)
  searchFor : Entry → SearchOracle
  details : Nat → String → Except String DetailsData

/-- Lines 569-578: the cache probe. It runs only without `forceRefresh`
and with a configured cache; a failed `get` is caught and treated as a
miss. -/
def tmdbCacheLookup (o : TmdbOracle) (forceRefresh : Bool) (m : Movie) :
    Option TmdbPayload :=
  if ¬forceRefresh ∧ o.hasCache then
    match o.cacheGet m.entry with
    | Except.ok (some payload) => some payload
    | Except.ok none => none
    | Except.error _ => none
  else none

/-- Lines 564-657: the per-record body of `enrichWithTMDB`'s chunk map.
A cache hit is spread onto the record and returned; otherwise the search
and details calls run inside one `try` whose `catch` attaches
`error: true`; an exhausted search attaches `notFound: true`.  The cache
`set` calls only store the payload, their failures are caught, and they
do not affect the returned record, so they are not modelled. -/
def enrichOneTMDB (o : TmdbOracle) (forceRefresh : Bool) (m : Movie) : Movie :=
  match tmdbCacheLookup o forceRefresh m with
  | some payload => { m with tmdb := some payload }
  | none =>
    match (searchTMDB m.entry (o.searchFor m.entry)).1 with
    | Except.error _ => { m with tmdb := some TmdbPayload.errored }
    | Except.ok none => { m with tmdb := some TmdbPayload.notFound }
    | Except.ok (some (mt, mediaType)) =>
      match o.details mt.id (if mediaType == "tv" then "tv" else "movie") with
      | Except.error _ => { m with tmdb := some TmdbPayload.errored }
      | Except.ok d => { m with tmdb := some (TmdbPayload.found (mkProviderFields mt d)) }

/-- The chunk loop of `enrichWithTMDB` (lines 561-662): CHUNK_SIZE = 3;
`Promise.all` over a chunk enriches each record independently; the 300 ms
inter-chunk delay has no effect on the data. -/
def tmdbChunks (o : TmdbOracle) (forceRefresh : Bool) : List Movie → List Movie
  | [] => []
  | e :: rest =>
    (e :: rest.take 2).map (enrichOneTMDB o forceRefresh)
      ++ tmdbChunks o forceRefresh (rest.drop 2)
termination_by l => l.length
decreasing_by simp [List.length_drop]; omega

/-- `enrichWithTMDB` (lines 551-665): throws when the API key is missing
(lines 552-554), otherwise processes the list chunk by chunk. -/
def enrichWithTMDB (o : TmdbOracle) (forceRefresh : Bool) (entries : List Movie) :
    Except String (List Movie) :=
  if o.apiKeyPresent = false then
    Except.error "TMDB API key is not configured on the server."
  else Except.ok (tmdbChunks o forceRefresh entries)

theorem tmdbChunks_eq_map (o : TmdbOracle) (fr : Bool) :
    ∀ (l : List Movie), tmdbChunks o fr l = l.map (enrichOneTMDB o fr) := by
  have H : ∀ (n : Nat) (l : List Movie), l.length ≤ n →
      tmdbChunks o fr l = l.map (enrichOneTMDB o fr) := by
    intro n
    induction n with
    | zero =>
      intro l hl
      rw [Nat.le_zero, List.length_eq_zero] at hl
      subst hl
      simp [tmdbChunks]
    | succ n ih =>
      intro l hl
      match l with
      | [] => simp [tmdbChunks]
      | e :: rest =>
        rw [tmdbChunks, ih (rest.drop 2) (by simp only [List.length_drop]; simp at hl; omega),
          ← List.map_append, List.cons_append, List.take_append_drop]
  intro l
  exact H l.length l (le_refl _)

theorem enrichOneTMDB_extends (o : TmdbOracle) (fr : Bool) (m : Movie) :
    (enrichOneTMDB o fr m).entry = m.entry ∧
    (enrichOneTMDB o fr m).lbMeta = m.lbMeta ∧
    ∃ p, (enrichOneTMDB o fr m).tmdb = some p := by
  unfold enrichOneTMDB
  split
  · exact ⟨rfl, rfl, _, rfl⟩
  · split
    · exact ⟨rfl, rfl, _, rfl⟩
    · exact ⟨rfl, rfl, _, rfl⟩
    · split
      · exact ⟨rfl, rfl, _, rfl⟩
      · exact ⟨rfl, rfl, _, rfl⟩

/-! ### Unfolding equations for the search ladder -/

theorem searchTMDB_no_year (movie : Entry) (o : SearchOracle) (hy : movie.Year = "") :
    searchTMDB movie o = searchTier2 o := by
  unfold searchTMDB
  rw [if_pos hy]

theorem searchTMDB_year_empty (movie : Entry) (o : SearchOracle) (hy : ¬ movie.Year = "")
    (hW : o.movieWithYear = Except.ok []) :
    searchTMDB movie o = ((searchTier2 o).1, Tier.withYear :: (searchTier2 o).2) := by
  unfold searchTMDB
  rw [if_neg hy, hW]

theorem searchTMDB_year_hit (movie : Entry) (o : SearchOracle) (hy : ¬ movie.Year = "")
    (x : TMDBResult) (xs : List TMDBResult) (hW : o.movieWithYear = Except.ok (x :: xs)) :
    searchTMDB movie o = (Except.ok (some (x, "movie")), [Tier.withYear]) := by
  unfold searchTMDB
  rw [if_neg hy, hW]

theorem searchTier2_hit (o : SearchOracle) (x : TMDBResult) (xs : List TMDBResult)
    (hN : o.movieNoYear = Except.ok (x :: xs)) :
    searchTier2 o = (Except.ok (some (x, "movie")), [Tier.noYear]) := by
  unfold searchTier2
  rw [hN]

theorem searchTier2_empty (o : SearchOracle) (hN : o.movieNoYear = Except.ok []) :
    searchTier2 o = ((searchTier3 o).1, Tier.noYear :: (searchTier3 o).2) := by
  unfold searchTier2
  rw [hN]

theorem searchTier3_sorted (o : SearchOracle) (rs : List TMDBResult) (b : TMDBResult)
    (bs : List TMDBResult) (hM : o.multi = Except.ok rs)
    (hsort : sortByPopularityDesc (multiFiltered rs) = b :: bs) :
    searchTier3 o = (Except.ok (some (b, b.media_type)), [Tier.multi]) := by
  unfold searchTier3
  simp only [hM]
  rw [hsort]

theorem searchTier3_none (o : SearchOracle) (rs : List TMDBResult)
    (hM : o.multi = Except.ok rs) (hf : multiFiltered rs = []) :
    searchTier3 o = (Except.ok none, [Tier.multi]) := by
  unfold searchTier3
  simp only [hM]
  rw [hf]
  rfl

/-- Claim C6: provider matching tries exactly three tiers in order, the
first tier returning a non-empty result list winning: (1) with a
non-empty year, a year-scoped movie-search hit is returned immediately
and tiers 2 and 3 are never queried; (2) otherwise a year-less
movie-search hit wins and the combined-media tier is never queried;
(3) otherwise the combined-media results, filtered to movie/tv and
sorted descending by popularity, yield their top (most popular) result;
and a record exhausting all three tiers yields `(none, none)` after
querying exactly the three tiers in order, and enrichment marks it
`notFound`. -/
theorem searchTMDB_tiers (movie : Entry) (o : SearchOracle) :
    (∀ x xs, movie.Year ≠ "" → o.movieWithYear = Except.ok (x :: xs) →
      searchTMDB movie o = (Except.ok (some (x, "movie")), [Tier.withYear])) ∧
    (∀ x xs, (movie.Year = "" ∨ o.movieWithYear = Except.ok []) →
      o.movieNoYear = Except.ok (x :: xs) →
      (searchTMDB movie o).1 = Except.ok (some (x, "movie")) ∧
      Tier.multi ∉ (searchTMDB movie o).2) ∧
    (∀ rs b bs, (movie.Year = "" ∨ o.movieWithYear = Except.ok []) →
      o.movieNoYear = Except.ok [] → o.multi = Except.ok rs →
      sortByPopularityDesc (multiFiltered rs) = b :: bs →
      (searchTMDB movie o).1 = Except.ok (some (b, b.media_type)) ∧
      ∀ r ∈ multiFiltered rs, popOf r ≤ popOf b) ∧
    (∀ rs, movie.Year ≠ "" → o.movieWithYear = Except.ok [] →
      o.movieNoYear = Except.ok [] → o.multi = Except.ok rs → multiFiltered rs = [] →
      searchTMDB movie o = (Except.ok none, [Tier.withYear, Tier.noYear, Tier.multi]) ∧
      ∀ (t : TmdbOracle) (fr : Bool) (m : Movie), t.hasCache = false →
        t.searchFor m.entry = o → m.entry = movie →
        enrichOneTMDB t fr m = { m with tmdb := some TmdbPayload.notFound }) := by
  refine ⟨?_, ?_, ?_, ?_⟩
  · intro x xs hy hW
    exact searchTMDB_year_hit movie o hy x xs hW
  · intro x xs hOr hN
    have h2 := searchTier2_hit o x xs hN
    by_cases hy : movie.Year = ""
    · rw [searchTMDB_no_year movie o hy, h2]
      exact ⟨rfl, by simp⟩
    · have hW : o.movieWithYear = Except.ok [] := by
        rcases hOr with h | h
        · exact absurd h hy
        · exact h
      rw [searchTMDB_year_empty movie o hy hW, h2]
      refine ⟨rfl, ?_⟩
      intro hc
      simp at hc
  · intro rs b bs hOr hN hM hsort
    have h3 := searchTier3_sorted o rs b bs hM hsort
    have h2 := searchTier2_empty o hN
    rw [h3] at h2
    refine ⟨?_, sort_head_max (multiFiltered rs) b bs hsort⟩
    by_cases hy : movie.Year = ""
    · rw [searchTMDB_no_year movie o hy, h2]
    · have hW : o.movieWithYear = Except.ok [] := by
        rcases hOr with h | h
        · exact absurd h hy
        · exact h
      rw [searchTMDB_year_empty movie o hy hW, h2]
  · intro rs hy hW hN hM hf
    have h3 := searchTier3_none o rs hM hf
    have h2 := searchTier2_empty o hN
    rw [h3] at h2
    have hall : searchTMDB movie o
        = (Except.ok none, [Tier.withYear, Tier.noYear, Tier.multi]) := by
      rw [searchTMDB_year_empty movie o hy hW, h2]
    refine ⟨hall, ?_⟩
    intro t fr m hc hsf hme
    unfold enrichOneTMDB
    have hcl : tmdbCacheLookup t fr m = none := by
      unfold tmdbCacheLookup
      rw [if_neg]
      intro hcond
      rw [hc] at hcond
      exact nomatch hcond.2
    rw [hcl, hsf, hme, hall]

def c6result : TMDBResult := ⟨77, "movie", some 5, none, none, none⟩

/-- A provider stub that answers only the year-scoped tier and would
throw on the other two. -/
def c6oracle : SearchOracle :=
  { movieWithYear := Except.ok [c6result]
    movieNoYear := Except.error "tier 2 must not be queried"
    multi := Except.error "tier 3 must not be queried" }

def c6movie : Entry := ⟨"", "Heat", "1995", "/heat/", ""⟩

/-- Witness for C6 (the spec's tiered-match test): a record with a known
year against a stub that only answers the year-scoped tier gets that hit,
and only tier 1 is queried. -/
theorem searchTMDB_tiers_witness :
    searchTMDB c6movie c6oracle = (Except.ok (some (c6result, "movie")), [Tier.withYear]) :=
  (searchTMDB_tiers c6movie c6oracle).1 c6result [] (by decide) rfl

/-! ### Claim C8 -/

/-- Claim C8: with the API key configured, `enrichWithTMDB` returns
normally (no exception escapes) with exactly one output per input record,
in order, each produced from its own input alone — so one record's
failure cannot cancel its chunk siblings or abort the run — and each
output extends its input: the pre-existing fields are untouched and a
TMDB payload (full provider fields, a `notFound` marker, or an `error`
marker — the three `TmdbPayload` shapes) is attached. -/
theorem enrichWithTMDB_per_record (o : TmdbOracle) (fr : Bool) (entries : List Movie)
    (hkey : o.apiKeyPresent = true) :
    enrichWithTMDB o fr entries = Except.ok (entries.map (enrichOneTMDB o fr)) ∧
    ∀ m : Movie, (enrichOneTMDB o fr m).entry = m.entry ∧
      (enrichOneTMDB o fr m).lbMeta = m.lbMeta ∧
      ∃ p, (enrichOneTMDB o fr m).tmdb = some p := by
  constructor
  · unfold enrichWithTMDB
    rw [if_neg (by rw [hkey]; exact fun hcon => nomatch hcon), tmdbChunks_eq_map]
  · exact enrichOneTMDB_extends o fr

def c8oracle : TmdbOracle :=
  { apiKeyPresent := true
    hasCache := false
    cacheGet := fun _ => Except.ok none
    searchFor := fun e =>
      if e.Name = "Broken" then
        { movieWithYear := Except.ok []
          movieNoYear := Except.error "search failed: 500"
          multi := Except.ok [] }
      else
        { movieWithYear := Except.ok []
          movieNoYear := Except.ok []
          multi := Except.ok [] }
    details := fun _ _ => Except.error "unused" }

def c8movie1 : Movie := { entry := ⟨"", "Broken", "2000", "/x/", ""⟩ }

def c8movie2 : Movie := { entry := ⟨"", "Fine", "", "/y/", ""⟩ }

/-- Witness for C8: a run over two records where the first one's search
throws and the second exhausts the ladder — the output has one record per
input, the first marked `error`, the second `notFound`, and no exception
escapes. -/
theorem enrichWithTMDB_per_record_witness :
    enrichWithTMDB c8oracle false [c8movie1, c8movie2]
      = Except.ok ([c8movie1, c8movie2].map (enrichOneTMDB c8oracle false)) ∧
    [c8movie1, c8movie2].map (enrichOneTMDB c8oracle false)
      = [{ c8movie1 with tmdb := some TmdbPayload.errored },
         { c8movie2 with tmdb := some TmdbPayload.notFound }] :=
  ⟨(enrichWithTMDB_per_record c8oracle false [c8movie1, c8movie2] rfl).1, by decide⟩

/-! ### Native-detail enrichment (`enrichWithLetterboxdDetails`,
lines 669-721) and claim C10 -/

/-- The observable per-record effects of the native-detail stage, keyed
by the record's `LetterboxdURI` (the cache key is a pure function of the
normalized URI, line 681). -/
inductive LbEvent
  | cacheGet (key : String)
  | cacheSet (key : String)
  | scrape (key : String)
deriving DecidableEq

/-- Cache backend and film-page scraping for the native-detail stage.
`scrapeMeta` covers `scrapeLetterboxdFilmMeta` (which on its own failures
resolves with empty collections; the `Except.error` case models the
enricher's outer `catch`, line 709-712, which returns the record
unchanged). -/
structure LbOracle where
  hasCache : Bool
  cacheGet : String → Except String (Option NativeDetail)
  scrapeMeta : String → Except String NativeDetail

/-- Lines 677-712: the per-record body of `enrichWithLetterboxdDetails`'s
chunk map, instrumented with the effects it performs.  Line 678:
`if (!movie.LetterboxdURI) return movie;` — a record with a falsy URI is
returned immediately, before the cache key is even built.  The cache
`get` runs only without `forceRefresh` and with a configured cache and
its failure is caught (a miss); a scrape success is cached (`set`
failures are caught) and spread onto the record; a scrape throw returns
the record unchanged. -/
def enrichOneLB (o : LbOracle) (forceRefresh : Bool) (m : Movie) : Movie × List LbEvent :=
  if m.entry.LetterboxdURI = "" then (m, [])
  else
    match (if ¬forceRefresh ∧ o.hasCache then
        match o.cacheGet m.entry.LetterboxdURI with
        | Except.ok (some meta) => (some meta, [LbEvent.cacheGet m.entry.LetterboxdURI])
        | Except.ok none => (none, [LbEvent.cacheGet m.entry.LetterboxdURI])
        | Except.error _ => (none, [LbEvent.cacheGet m.entry.LetterboxdURI])
      else ((none : Option NativeDetail), ([] : List LbEvent))) with
    | (some meta, evs) => ({ m with lbMeta := some meta }, evs)
    | (none, evs) =>
      match o.scrapeMeta m.entry.LetterboxdURI with
      | Except.ok meta =>
        ({ m with lbMeta := some meta },
          evs ++ [LbEvent.scrape m.entry.LetterboxdURI]
            ++ (if o.hasCache then [LbEvent.cacheSet m.entry.LetterboxdURI] else []))
      | Except.error _ => (m, evs ++ [LbEvent.scrape m.entry.LetterboxdURI])

/-- The chunk loop of `enrichWithLetterboxdDetails` (lines 669-721):
CHUNK_SIZE = 3, `Promise.all` per chunk, 200 ms inter-chunk delay (no
data effect); outputs in order, effect lists concatenated in order. -/
def enrichWithLetterboxdDetails (o : LbOracle) (forceRefresh : Bool) :
    List Movie → List Movie × List LbEvent
  | [] => ([], [])
  | e :: rest =>
    ((((e :: rest.take 2).map (enrichOneLB o forceRefresh)).map Prod.fst)
        ++ (enrichWithLetterboxdDetails o forceRefresh (rest.drop 2)).1,
      (((e :: rest.take 2).map (enrichOneLB o forceRefresh)).map Prod.snd).flatten
        ++ (enrichWithLetterboxdDetails o forceRefresh (rest.drop 2)).2)
termination_by l => l.length
decreasing_by all_goals (simp [List.length_drop]; omega)

theorem enrichLB_eq (o : LbOracle) (fr : Bool) :
    ∀ (l : List Movie),
      enrichWithLetterboxdDetails o fr l
        = (l.map (fun m => (enrichOneLB o fr m).1),
           (l.map (fun m => (enrichOneLB o fr m).2)).flatten) := by
  have H : ∀ (n : Nat) (l : List Movie), l.length ≤ n →
      enrichWithLetterboxdDetails o fr l
        = (l.map (fun m => (enrichOneLB o fr m).1),
           (l.map (fun m => (enrichOneLB o fr m).2)).flatten) := by
    intro n
    induction n with
    | zero =>
      intro l hl
      rw [Nat.le_zero, List.length_eq_zero] at hl
      subst hl
      simp [enrichWithLetterboxdDetails]
    | succ n ih =>
      intro l hl
      match l with
      | [] => simp [enrichWithLetterboxdDetails]
      | e :: rest =>
        rw [enrichWithLetterboxdDetails,
          ih (rest.drop 2) (by simp only [List.length_drop]; simp at hl; omega)]
        have hsplit : e :: rest = (e :: rest.take 2) ++ rest.drop 2 := by
          rw [List.cons_append, List.take_append_drop]
        rw [List.map_map, List.map_map]
        refine congrArg₂ Prod.mk ?_ ?_
        · conv_rhs => rw [hsplit]
          rw [List.map_append]
          rfl
        · conv_rhs => rw [hsplit]
          rw [List.map_append, List.flatten_append]
          rfl
  intro l
  exact H l.length l (le_refl _)

/-- Claim C10: the native-detail stage maps each record independently
(outputs in order, effect traces concatenated), and a record whose
`LetterboxdURI` is empty passes through completely unchanged with an
empty effect trace — no cache get, no cache set, no scrape, and no field
or marker added. -/
theorem enrichLB_empty_uri_frame (o : LbOracle) (fr : Bool) (entries : List Movie) :
    (enrichWithLetterboxdDetails o fr entries).1
      = entries.map (fun m => (enrichOneLB o fr m).1) ∧
    (enrichWithLetterboxdDetails o fr entries).2
      = (entries.map (fun m => (enrichOneLB o fr m).2)).flatten ∧
    ∀ m : Movie, m.entry.LetterboxdURI = "" → enrichOneLB o fr m = (m, []) := by
  refine ⟨by rw [enrichLB_eq], by rw [enrichLB_eq], ?_⟩
  intro m hm
  unfold enrichOneLB
  rw [if_pos hm]

def c10oracle : LbOracle :=
  { hasCache := true
    cacheGet := fun _ => Except.ok none
    scrapeMeta := fun _ => Except.error "network down" }

def c10movie : Movie := { entry := ⟨"2020-01-01", "No URI Film", "2020", "", "3"⟩ }

/-- Witness for C10: a record with an empty `LetterboxdURI` (even with a
cache configured) comes back unchanged with an empty effect trace. -/
theorem enrichLB_empty_uri_frame_witness :
    enrichOneLB c10oracle false c10movie = (c10movie, []) :=
  (enrichLB_empty_uri_frame c10oracle false []).2.2 c10movie rfl

/-! ### The request-handler pipeline (`handler`, lines 723-854): claims
C4 and C7

The model covers the pipeline core after request validation (method and
username checks), in the configuration without a Redis backend for the
whole-user cache (`getRedisClient()` returns `null`, lines 32-34, so the
user-level cache get/set are skipped).  Pipeline stages are recorded in
order as they are entered, which makes "work done before an error
surfaced" visible in the trace. -/

inductive Stage
  | films
  | diary
  | lbDetails
  | tmdb
deriving DecidableEq

inductive HandlerResult
  | ok (movies : List Movie)
  | notFound
  | serverError
deriving DecidableEq

structure HandlerOracle where
  filmsFetch : Nat → Except String (List Entry × Bool)
  diaryFetch : Nat → Except String (List Entry × Bool)
  lb : LbOracle
  tmdb : TmdbOracle

/-- Lines 770-775: `scrapeFullFilms` runs inside its own `try`/`catch`;
a films-side failure is logged and leaves `filmEntries = []`. -/
def caughtFilms (o : HandlerOracle) : List Entry :=
  match scrapeFullFilms o.filmsFetch 20 with
  | Except.ok es => es
  | Except.error _ => []

/-- Lines 768-853: the pipeline.  `scrapeFullDiary` (line 778) is NOT
wrapped in its own `try`/`catch`, so a diary-side throw falls through to
the outer `catch` (lines 850-853) and becomes a 500.  Both listings
empty gives the 404 (lines 780-783); otherwise merge, native-detail
enrichment, then provider enrichment (whose missing-key throw also falls
through to the outer `catch` as a 500), then the 200 payload. -/
def handlerCore (o : HandlerOracle) (forceRefresh : Bool) : HandlerResult × List Stage :=
  match scrapeFullDiary o.diaryFetch 10 with
  | Except.error _ => (HandlerResult.serverError, [Stage.films, Stage.diary])
  | Except.ok diaryEntries =>
    if (caughtFilms o).length = 0 ∧ diaryEntries.length = 0 then
      (HandlerResult.notFound, [Stage.films, Stage.diary])
    else
      match enrichWithTMDB o.tmdb forceRefresh
          ((enrichWithLetterboxdDetails o.lb forceRefresh
            ((merge (caughtFilms o) diaryEntries).map
              (fun e => ({ entry := e } : Movie)))).1) with
      | Except.error _ =>
        (HandlerResult.serverError, [Stage.films, Stage.diary, Stage.lbDetails])
      | Except.ok enriched =>
        (HandlerResult.ok enriched,
          [Stage.films, Stage.diary, Stage.lbDetails, Stage.tmdb])

theorem enrichOneLB_entry (o : LbOracle) (fr : Bool) (m : Movie) :
    ((enrichOneLB o fr m).1).entry = m.entry := by
  unfold enrichOneLB
  split
  · rfl
  · split
    · rfl
    · split
      · rfl
      · rfl

/-- Both enrichment stages preserve the merged entries, position by
position. -/
theorem map_entry_pipeline (o : HandlerOracle) (fr : Bool) (l : List Entry) :
    (tmdbChunks o.tmdb fr ((enrichWithLetterboxdDetails o.lb fr
        (l.map (fun e => ({ entry := e } : Movie)))).1)).map (fun mv => mv.entry) = l := by
  rw [tmdbChunks_eq_map, enrichLB_eq]
  simp only [List.map_map]
  have hpt : ∀ e ∈ l, ((fun mv => mv.entry) ∘ enrichOneTMDB o.tmdb fr
      ∘ ((fun m => (enrichOneLB o.lb fr m).1) ∘ (fun e => ({ entry := e } : Movie)))) e
        = id e := by
    intro e _
    simp only [Function.comp_apply, id_eq]
    rw [(enrichOneTMDB_extends o.tmdb fr _).1, enrichOneLB_entry]
  rw [List.map_congr_left hpt, List.map_id]

/-! ### Claim C4 -/

def c4entry : Entry := ⟨"", "Film A", "2001", "/a/", "4"⟩

def stubLb : LbOracle :=
  { hasCache := false
    cacheGet := fun _ => Except.ok none
    scrapeMeta := fun _ => Except.error "film page unreachable" }

def stubTmdb : TmdbOracle :=
  { apiKeyPresent := true
    hasCache := false
    cacheGet := fun _ => Except.ok none
    searchFor := fun _ =>
      { movieWithYear := Except.ok []
        movieNoYear := Except.ok []
        multi := Except.ok [] }
    details := fun _ _ => Except.error "unused" }

/-- Oracle for the C4 counterexample: the films listing succeeds with one
entry, the diary listing's transport fails. -/
def c4oracle : HandlerOracle :=
  { filmsFetch := fun _ => Except.ok ([c4entry], false)
    diaryFetch := fun _ => Except.error "Failed to fetch the diary page: 500"
    lb := stubLb
    tmdb := stubTmdb }

def isOkResult : HandlerResult → Bool
  | HandlerResult.ok _ => true
  | _ => false

/-- Counterexample to claim C4 as stated: a transport failure during the
DIARY pagination is not isolated — it aborts the whole pipeline with a
500, and the successfully scraped films entries are not merged, enriched
or returned (no 200 result is produced). -/
theorem diary_failure_aborts_pipeline :
    handlerCore c4oracle false = (HandlerResult.serverError, [Stage.films, Stage.diary]) ∧
    isOkResult (handlerCore c4oracle false).1 = false := by
  constructor
  · rfl
  · rfl

/-- Claim C4 (amended): the isolation is one-sided.  A films/grid
transport failure aborts only the films pagination — the diary entries
are still merged, enriched and returned with a 200 — while a diary
transport failure aborts the whole pipeline with a 500 (the spec's
symmetric "must not abort the overall pipeline" does not hold for the
diary side). -/
theorem films_failure_isolated (o : HandlerOracle) (fr : Bool) :
    (∀ msg ds, scrapeFullFilms o.filmsFetch 20 = Except.error msg →
      scrapeFullDiary o.diaryFetch 10 = Except.ok ds → ds ≠ [] →
      o.tmdb.apiKeyPresent = true →
      ∃ movies, handlerCore o fr
          = (HandlerResult.ok movies,
             [Stage.films, Stage.diary, Stage.lbDetails, Stage.tmdb])
        ∧ movies.map (fun mv => mv.entry) = merge [] ds) ∧
    (∀ msg, scrapeFullDiary o.diaryFetch 10 = Except.error msg →
      handlerCore o fr = (HandlerResult.serverError, [Stage.films, Stage.diary])) := by
  constructor
  · intro msg ds hfilms hdiary hds hkey
    have hcf : caughtFilms o = [] := by
      unfold caughtFilms
      rw [hfilms]
    have htm : enrichWithTMDB o.tmdb fr ((enrichWithLetterboxdDetails o.lb fr
        ((merge (caughtFilms o) ds).map (fun e => ({ entry := e } : Movie)))).1)
        = Except.ok (tmdbChunks o.tmdb fr ((enrichWithLetterboxdDetails o.lb fr
            ((merge (caughtFilms o) ds).map (fun e => ({ entry := e } : Movie)))).1)) := by
      unfold enrichWithTMDB
      rw [if_neg (by rw [hkey]; exact fun hcon => nomatch hcon)]
    refine ⟨tmdbChunks o.tmdb fr ((enrichWithLetterboxdDetails o.lb fr
        ((merge (caughtFilms o) ds).map (fun e => ({ entry := e } : Movie)))).1), ?_, ?_⟩
    · unfold handlerCore
      simp only [hdiary]
      rw [if_neg (fun hc => hds (List.length_eq_zero.mp hc.2)), htm]
    · rw [map_entry_pipeline, hcf]
  · intro msg hdiary
    unfold handlerCore
    simp only [hdiary]

/-- Oracle for the C4 witness: the films transport fails, the diary
succeeds with one entry. -/
def c4bOracle : HandlerOracle :=
  { filmsFetch := fun _ => Except.error "Failed to fetch the films page: 500"
    diaryFetch := fun _ => Except.ok ([c4entry], false)
    lb := stubLb
    tmdb := stubTmdb }

/-- Witness for the amended C4: with the films side down, the pipeline
still returns a 200 whose records carry exactly the diary-derived merged
entries. -/
theorem films_failure_isolated_witness :
    ∃ movies, handlerCore c4bOracle false
        = (HandlerResult.ok movies,
           [Stage.films, Stage.diary, Stage.lbDetails, Stage.tmdb])
      ∧ movies.map (fun mv => mv.entry) = merge [] [c4entry] :=
  (films_failure_isolated c4bOracle false).1 "Failed to fetch the films page: 500"
    [c4entry] rfl rfl (by decide) rfl

/-! ### Claim C7 -/

/-- Oracle for C7: the provider credential is missing, but the user has
diary data. -/
def c7oracle : HandlerOracle :=
  { filmsFetch := fun _ => Except.ok ([], false)
    diaryFetch := fun _ => Except.ok ([c4entry], false)
    lb := stubLb
    tmdb := { stubTmdb with apiKeyPresent := false } }

/-- Counterexample to claim C7 as stated: with the TMDB key missing the
request does end in a 500, but NOT before any work — both paginations and
the native-detail enrichment stage have already run (the trace of entered
stages is not empty; only the provider stage is never reached).  At
module load the missing key only produces a console warning
(lines 6-8). -/
theorem missing_key_not_before_work :
    handlerCore c7oracle false
      = (HandlerResult.serverError, [Stage.films, Stage.diary, Stage.lbDetails]) ∧
    [Stage.films, Stage.diary, Stage.lbDetails] ≠ ([] : List Stage) := by
  constructor
  · rfl
  · intro hc
    cases hc

/-- Claim C7 (amended): a missing provider credential is surfaced to the
caller as a 500, but only when provider enrichment begins — after the
scraping stages and the native-detail stage have already run; the
provider stage itself is never entered. -/
theorem missing_key_500_after_work (o : HandlerOracle) (fr : Bool) (ds : List Entry)
    (hkey : o.tmdb.apiKeyPresent = false)
    (hdiary : scrapeFullDiary o.diaryFetch 10 = Except.ok ds) (hds : ds ≠ []) :
    handlerCore o fr
      = (HandlerResult.serverError, [Stage.films, Stage.diary, Stage.lbDetails]) := by
  have htm : enrichWithTMDB o.tmdb fr ((enrichWithLetterboxdDetails o.lb fr
      ((merge (caughtFilms o) ds).map (fun e => ({ entry := e } : Movie)))).1)
      = Except.error "TMDB API key is not configured on the server." := by
    unfold enrichWithTMDB
    rw [if_pos hkey]
  unfold handlerCore
  simp only [hdiary]
  rw [if_neg (fun hc => hds (List.length_eq_zero.mp hc.2)), htm]

/-- Witness for the amended C7 at the counterexample oracle. -/
theorem missing_key_500_after_work_witness :
    handlerCore c7oracle false
      = (HandlerResult.serverError, [Stage.films, Stage.diary, Stage.lbDetails]) :=
  missing_key_500_after_work c7oracle false [c4entry] rfl rfl (by decide)

end MovieStats
